import Mathlib

/-!
Verification of the spectrace binary-analysis orchestration subsystem
(api/services/ghidra_service.py and api/middleware/error_handler.py)
against its natural-language specification.

Python strings are modelled as lists of characters; machine state touched
by the orchestrator (the workspace directory, the child process) is made
explicit; fallible steps return values of an Except type.
-/

namespace Spectrace

/-- Python strings, modelled as lists of characters. -/
abbrev Str : Type := List Char

/-- Literal helper: the character list of a Lean string literal. -/
def str (s : String) : Str := s.data

/-- The characters removed by Python str.strip with no argument. -/
def pyIsSpace (c : Char) : Bool :=
  c = ' ' || c = '\t' || c = '\n' || c = '\r' || c = '\x0b' || c = '\x0c'

/-- Python s.strip(): remove leading and trailing whitespace. -/
def pyStrip (s : Str) : Str :=
  ((s.dropWhile pyIsSpace).reverse.dropWhile pyIsSpace).reverse

/-- Python s.lower(), restricted to the ASCII case folding of Char.toLower
(all pattern matching done by the source is over ASCII text). -/
def pyLower (s : Str) : Str := s.map Char.toLower

/-- Python substring containment, the operator sub in s. -/
def containsSub (pat : Str) : Str → Bool
  | [] => pat.isEmpty
  | c :: rest => pat.isPrefixOf (c :: rest) || containsSub pat rest

/-- Python s.replace(' ', '_') for single characters. -/
def pyReplaceChar (a b : Char) (s : Str) : Str :=
  s.map (fun c => if c = a then b else c)

/-- Python dict insertion: overwrite the value in place if the key exists,
otherwise append the binding at the end (insertion order). -/
def dictInsert (k v : Str) : List (Str × Str) → List (Str × Str)
  | [] => [(k, v)]
  | (k2, v2) :: rest =>
    if k2 = k then (k, v) :: rest else (k2, v2) :: dictInsert k v rest

/-- Python dict lookup. -/
def dictGet (k : Str) (d : List (Str × Str)) : Option Str :=
  (d.find? (fun p => p.1 = k)).map Prod.snd

/-! ### GhidraDecompiler._filter_stderr_output and the success predicate -/

/-- One line tested against the table ignore_patterns of benign regexes,
with the semantics of re.match(pattern, line, re.IGNORECASE): the pattern
must match at the start of the line.  The line is lowercased and each
regex is translated: a literal is a lowercased prefix test, a trailing
dot-star is dropped, and an inner dot-star becomes substring containment
in the text after the literal prefix (lines never contain a newline when
this is applied, so dot matches every remaining character).
The seven patterns of the source table, in order:
openjdk version dot-star; OpenJDK Runtime Environment dot-star;
OpenJDK dot-star Server VM dot-star; WARNING: dot-star sun.awt.X11 dot-star;
WARNING: dot-star headless dot-star; INFO: dot-star; empty line. -/
def matchesIgnorePattern (line : Str) : Bool :=
  let l := pyLower line
  (str ("openjdk version")).isPrefixOf l ||
  (str ("openjdk runtime environment")).isPrefixOf l ||
  ((str ("openjdk")).isPrefixOf l && containsSub (str ("server vm")) (l.drop 7)) ||
  ((str ("warning:")).isPrefixOf l && containsSub (str ("sun.awt.x11")) (l.drop 8)) ||
  ((str ("warning:")).isPrefixOf l && containsSub (str ("headless")) (l.drop 8)) ||
  (str ("info:")).isPrefixOf l ||
  l.isEmpty

/-- GhidraDecompiler._filter_stderr_output: split stderr on newlines, strip
each line, drop empty lines and lines matching a benign pattern, and join
the survivors with newlines. -/
def filter_stderr_output (stderrStr : Str) : Str :=
  if stderrStr.isEmpty then []
  else
    let lines := stderrStr.splitOn '\n'
    let filtered := (lines.map pyStrip).filter
      (fun l => !l.isEmpty && !matchesIgnorePattern l)
    (['\n'] : Str).intercalate filtered

/-- The fixed completion marker printed by the automation script. -/
def completionMarker : Str := str ("Decompilation completed successfully")

/-- The success judgment of GhidraDecompiler._run_ghidra_analysis:
return code zero, or filtered stderr empty and the completion marker
contained in stdout. -/
def runSuccess (returnCode : Int) (stdoutStr stderrStr : Str) : Bool :=
  returnCode == 0 ||
    ((filter_stderr_output stderrStr).isEmpty &&
      containsSub completionMarker stdoutStr)

/-! ### GhidraErrorHandler.handle_ghidra_error -/

/-- The dictionary returned by GhidraErrorHandler.handle_ghidra_error. -/
structure ErrorResponse where
  success : Bool
  error : Str
  message : Str
  suggestion : Str
deriving DecidableEq

/-- GhidraErrorHandler.handle_ghidra_error: lowercase the error text and
test the branch conditions in source order; the final branch builds the
generic response around the original (not lowercased) error text. -/
def handle_ghidra_error (errorText context : Str) : ErrorResponse :=
  let m := pyLower errorText
  if containsSub (str ("java")) m && containsSub (str ("not found")) m then
    { success := false
      error := str ("Java runtime not found")
      message := str ("Java 17+ is required for Ghidra operations. Please ensure Java is installed and JAVA_HOME is set correctly.")
      suggestion := str ("Install Java 17+ and set JAVA_HOME environment variable") }
  else if containsSub (str ("ghidra")) m &&
      (containsSub (str ("not found")) m || containsSub (str ("no such file")) m) then
    { success := false
      error := str ("Ghidra installation not found")
      message := str ("Ghidra installation directory not found. Please ensure Ghidra is properly installed.")
      suggestion := str ("Set GHIDRA_INSTALL_DIR environment variable to your Ghidra installation path") }
  else if containsSub (str ("timeout")) m || containsSub (str ("timed out")) m then
    { success := false
      error := str ("Analysis timeout")
      message := str ("Binary analysis took too long and was terminated. This may happen with very large or complex binaries.")
      suggestion := str ("Try with a smaller binary or increase timeout limits") }
  else if containsSub (str ("permission")) m || containsSub (str ("denied")) m then
    { success := false
      error := str ("Permission denied")
      message := str ("Insufficient permissions to access required files or directories.")
      suggestion := str ("Check file permissions and ensure the application has write access to temporary directories") }
  else if containsSub (str ("memory")) m || containsSub (str ("heap")) m then
    { success := false
      error := str ("Insufficient memory")
      message := str ("Not enough memory available for binary analysis. This can happen with very large binaries.")
      suggestion := str ("Try with a smaller binary or increase available memory for the Java process") }
  else if containsSub (str ("unsupported")) m || containsSub (str ("unknown format")) m then
    { success := false
      error := str ("Unsupported binary format")
      message := str ("The uploaded file format is not supported by Ghidra for analysis.")
      suggestion := str ("Ensure the file is a valid binary (ELF, PE, Mach-O, or raw binary)") }
  else
    { success := false
      error := context ++ str (" failed")
      message := str ("An error occurred during ") ++ pyLower context ++ str (": ") ++ errorText
      suggestion := str ("Please check the binary file and try again") }

/-- The error taxonomy of the specification, section 4.6. -/
inductive ErrorCategory
  | missingRuntime
  | missingTool
  | timeoutCat
  | permissionDenied
  | outOfMemory
  | unsupportedFormat
  | generic
deriving DecidableEq

/-- The matching condition of each category, on the lowercased error text
(taken from the branch conditions of the source). -/
def categoryMatches (cat : ErrorCategory) (m : Str) : Bool :=
  match cat with
  | .missingRuntime => containsSub (str ("java")) m && containsSub (str ("not found")) m
  | .missingTool => containsSub (str ("ghidra")) m &&
      (containsSub (str ("not found")) m || containsSub (str ("no such file")) m)
  | .timeoutCat => containsSub (str ("timeout")) m || containsSub (str ("timed out")) m
  | .permissionDenied => containsSub (str ("permission")) m || containsSub (str ("denied")) m
  | .outOfMemory => containsSub (str ("memory")) m || containsSub (str ("heap")) m
  | .unsupportedFormat => containsSub (str ("unsupported")) m || containsSub (str ("unknown format")) m
  | .generic => true

/-- Modelled from the spec: the fixed priority order of section 4.6,
missing-runtime-dependency, missing-tool-installation, timeout,
permission-denied, out-of-memory, unsupported-format. -/
def priorityOrder : List ErrorCategory :=
  [.missingRuntime, .missingTool, .timeoutCat, .permissionDenied,
   .outOfMemory, .unsupportedFormat]

/-- Modelled from the spec: classification is the first category of the
priority order whose condition matches the case-folded error text,
defaulting to generic. -/
def classifySpec (errorText : Str) : ErrorCategory :=
  match priorityOrder.find? (fun cat => categoryMatches cat (pyLower errorText)) with
  | some cat => cat
  | none => .generic

/-- The category an ErrorResponse denotes, read off from its fixed error
field (the six specific categories carry six distinct fixed strings; every
other error field comes from the generic branch). -/
def responseCategory (r : ErrorResponse) : ErrorCategory :=
  if r.error = str ("Java runtime not found") then .missingRuntime
  else if r.error = str ("Ghidra installation not found") then .missingTool
  else if r.error = str ("Analysis timeout") then .timeoutCat
  else if r.error = str ("Permission denied") then .permissionDenied
  else if r.error = str ("Insufficient memory") then .outOfMemory
  else if r.error = str ("Unsupported binary format") then .unsupportedFormat
  else .generic

/-! ### GhidraDecompiler._parse_results -/

/-- Key normalization of the metadata loop:
key.strip().lower().replace(' ', '_'). -/
def normalizeKey (k : Str) : Str :=
  pyReplaceChar ' ' '_' (pyLower (pyStrip k))

/-- One iteration of the metadata loop: a line containing a colon is split
at the first colon (line.split(':', 1)); the normalized key maps to the
stripped value; a line without a colon is skipped. -/
def parseMetadataLine (d : List (Str × Str)) (line : Str) : List (Str × Str) :=
  if line.contains ':' then
    dictInsert
      (normalizeKey (line.takeWhile (fun c => c != ':')))
      (pyStrip ((line.dropWhile (fun c => c != ':')).drop 1))
      d
  else d

/-- The metadata loop: for line in metadata_content.strip().split('\n'). -/
def parseMetadata (content : Str) (init : List (Str × Str)) : List (Str × Str) :=
  ((pyStrip content).splitOn '\n').foldl parseMetadataLine init

/-- The three named artifact files a workspace may hold after a run
(none when the file is absent). -/
structure WorkspaceFiles where
  assemblyFile : Option Str
  decompiledFile : Option Str
  metadataFile : Option Str

/-- The fields of the dictionary built by _parse_results. -/
structure ParsedResults where
  assembly_code : Str
  decompiled_code : Str
  metadata : List (Str × Str)
deriving DecidableEq

/-- The warning logged by _parse_results when both code artifacts are empty. -/
def emptyResultWarning : Str := str ("No assembly or decompiled code generated")

/-- GhidraDecompiler._parse_results: read each artifact file if present
(stripping its content, logging a warning when absent), parse the metadata
file into the mapping initialized with the filename binding, and log a
warning when both code-bearing fields come out empty.  The second
component collects the logged warnings (log message paths are omitted;
info-level log lines are omitted; the internal exception guard is
unreachable in this model because every modelled read is total). -/
def parse_results (ws : WorkspaceFiles) (filename : Str) : ParsedResults × List Str :=
  let asmPair : Str × List Str :=
    match ws.assemblyFile with
    | some c => (pyStrip c, [])
    | none => ([], [str ("Assembly output file not found")])
  let decPair : Str × List Str :=
    match ws.decompiledFile with
    | some c => (pyStrip c, [])
    | none => ([], [str ("Decompiled output file not found")])
  let metaPair : List (Str × Str) × List Str :=
    match ws.metadataFile with
    | some c => (parseMetadata c [(str ("filename"), filename)], [])
    | none => ([(str ("filename"), filename)], [str ("Metadata output file not found")])
  let emptyLog : List Str :=
    if asmPair.1.isEmpty && decPair.1.isEmpty then [emptyResultWarning] else []
  ({ assembly_code := asmPair.1
     decompiled_code := decPair.1
     metadata := metaPair.1 },
   asmPair.2 ++ decPair.2 ++ metaPair.2 ++ emptyLog)

/-- Serialization of a metadata key/value set in the artifact format the
automation script writes: one line per binding, key, colon, space, value,
newline. -/
def serializeMetadata (kvs : List (Str × Str)) : Str :=
  (kvs.map (fun kv => kv.1 ++ str (": ") ++ kv.2 ++ ['\n'])).flatten

/-- Writing given assembly text, decompiled text and metadata set as the
three named artifact files of a workspace. -/
def writeWorkspace (asmText decText : Str) (kvs : List (Str × Str)) : WorkspaceFiles :=
  { assemblyFile := some asmText
    decompiledFile := some decText
    metadataFile := some (serializeMetadata kvs) }

/-- The line written for one metadata binding, without its newline. -/
def lineOf (kv : Str × Str) : Str := kv.1 ++ str (": ") ++ kv.2

/-! ### GhidraDecompiler.validate_binary_file -/

/-- The observable behavior of the filesystem probes made by
validate_binary_file at one path: the result of os.path.exists (which
itself never raises), of os.path.getsize (value or raised exception
text), and of opening the file and reading its first sixteen bytes
(bytes or raised exception text).  getsize is called twice in the source
on an unchanged file; it is modelled as one value. -/
structure FileProbe where
  pathExists : Bool
  sizeResult : Except Str Nat
  readResult : Except Str (List Nat)

/-- The 100 MB size ceiling. -/
def maxFileSize : Nat := 100 * 1024 * 1024

/-- The known binary magic signatures: ELF, PE/DOS, Mach-O 32-bit prefix,
Mach-O 64-bit, Mach-O byte-reversed, universal binary. -/
def binaryMagics : List (List Nat) :=
  [[0x7f, 0x45, 0x4c, 0x46],
   [0x4d, 0x5a],
   [0xfe, 0xed, 0xfa],
   [0xfe, 0xed, 0xfa, 0xce],
   [0xcf, 0xfa, 0xed, 0xfe],
   [0xca, 0xfe, 0xba, 0xbe]]

/-- GhidraDecompiler.validate_binary_file, with the filesystem behavior
supplied by a FileProbe.  The surrounding try/except turns any raised
exception text e into (False, "Error validating file: " + e). -/
def validate_binary_file (p : FileProbe) : Bool × Str :=
  if !p.pathExists then (false, str ("File does not exist"))
  else
    match p.sizeResult with
    | .error e => (false, str ("Error validating file: ") ++ e)
    | .ok size =>
      if size = 0 then (false, str ("File is empty"))
      else if size > maxFileSize then (false, str ("File too large (max 100MB)"))
      else
        match p.readResult with
        | .error e => (false, str ("Error validating file: ") ++ e)
        | .ok magic =>
          if binaryMagics.any (fun sig => sig.isPrefixOf magic) then
            (true, str ("Valid binary file"))
          else
            (true, str ("File format not clearly identified, proceeding with caution"))

/-! ### Workspace naming in GhidraDecompiler.decompile_binary -/

/-- The decimal digit characters, 48 being the code of the zero digit. -/
def digitChar (d : Nat) : Char := Char.ofNat (48 + d)

/-- Fuel-driven digit extraction, most significant digit first. -/
def natStrAux : Nat → Nat → Str
  | 0, _ => []
  | fuel + 1, n => if n = 0 then [] else natStrAux fuel (n / 10) ++ [digitChar (n % 10)]

/-- Decimal rendering of a natural number, as Python str(n). -/
def natStr (n : Nat) : Str :=
  if n = 0 then [digitChar 0] else natStrAux (n + 1) n

/-- The project (workspace) name computed at the top of decompile_binary:
the f-string temp_project_ followed by os.getpid().  The per-request data
of the call, binary path and filename, are parameters of decompile_binary
but do not enter the name. -/
def projectName (pid : Nat) (_binaryPath _filename : Str) : Str :=
  str ("temp_project_") ++ natStr pid

/-- The per-request workspace directory: the fixed staging root joined
with the project name. -/
def projectDir (pid : Nat) (binaryPath filename : Str) : Str :=
  str ("/tmp/ghidra_projects/") ++ projectName pid binaryPath filename

/-! ### GhidraDecompiler._run_ghidra_analysis -/

/-- The behavior of the external child process during one run: it either
finishes before the 300 second deadline with an exit code and captured
output, or is still running when the deadline expires, or spawning it
raises with some exception text. -/
inductive ProcBehavior
  | completes (returnCode : Int) (stdoutStr stderrStr : Str)
  | timesOut
  | spawnFails (e : Str)

/-- The state of the child process when _run_ghidra_analysis returns. -/
inductive ProcState
  | neverStarted
  | exitedReaped
  | killedReaped
deriving DecidableEq

/-- The message returned on the asyncio.TimeoutError path. -/
def timeoutMessage : Str := str ("Analysis timed out after 5 minutes")

/-- GhidraDecompiler._run_ghidra_analysis: on completion within the
deadline the triple is the success judgment, raw stdout and filtered
stderr, and communicate() has reaped the child; on deadline expiry the
child is killed then awaited (kill(); await wait()) and the triple is the
timeout failure; a spawn failure is caught and returned as a failure
triple.  The second component is the child process state at return. -/
def run_ghidra_analysis (b : ProcBehavior) : (Bool × Str × Str) × ProcState :=
  match b with
  | .completes rc stdoutStr stderrStr =>
    ((runSuccess rc stdoutStr stderrStr, stdoutStr, filter_stderr_output stderrStr),
     .exitedReaped)
  | .timesOut => ((false, [], timeoutMessage), .killedReaped)
  | .spawnFails e => ((false, [], e), .neverStarted)

/-! ### GhidraDecompiler.decompile_binary (the orchestrator) -/

/-- The dictionary returned by decompile_binary.  The error, message and
suggestion fields are absent on the success path. -/
structure DecompileResult where
  success : Bool
  errorMsg : Option Str
  message : Option Str
  suggestion : Option Str
  assembly_code : Str
  decompiled_code : Str
  metadata : List (Str × Str)
deriving DecidableEq

/-- The behavior of each side-effecting step of one decompile_binary call:
each step either returns normally or raises with some exception text, and
the final cleanup (shutil.rmtree with ignore_errors) either removes the
directory tree or fails silently. -/
structure Env where
  mkdirOutcome : Except Str Unit
  scriptOutcome : Except Str Unit
  runOutcome : Except Str (Bool × Str × Str)
  parseOutcome : Except Str (ParsedResults × List Str)
  rmtreeFails : Bool

/-- The failure dictionary built when _run_ghidra_analysis judges the run
unsuccessful. -/
def runFailureResult (error : Str) : DecompileResult :=
  { success := false
    errorMsg := some (str ("Ghidra analysis failed: ") ++ error)
    message := none
    suggestion := none
    assembly_code := []
    decompiled_code := []
    metadata := [] }

/-- The dictionary built by the except-branch of decompile_binary: the
GhidraErrorHandler response updated with empty code fields. -/
def exceptionResult (e : Str) : DecompileResult :=
  let resp := handle_ghidra_error e (str ("Binary decompilation"))
  { success := resp.success
    errorMsg := some resp.error
    message := some resp.message
    suggestion := some resp.suggestion
    assembly_code := []
    decompiled_code := []
    metadata := [] }

/-- The try-block of decompile_binary: mkdir, write the script, run the
analysis, and on a successful judgment parse the artifacts and mark the
result successful.  An exception escaping any step aborts the rest of the
block. -/
def decompileBody (env : Env) : Except Str DecompileResult :=
  env.mkdirOutcome.bind (fun _ =>
  env.scriptOutcome.bind (fun _ =>
  env.runOutcome.bind (fun r =>
    if !r.1 then .ok (runFailureResult r.2.2)
    else
      env.parseOutcome.bind (fun pr =>
        .ok { success := true
              errorMsg := none
              message := none
              suggestion := none
              assembly_code := pr.1.assembly_code
              decompiled_code := pr.1.decompiled_code
              metadata := pr.1.metadata }))))

/-- Whether the workspace directory exists when the finally-block runs:
mkdir created it unless mkdir itself raised. -/
def wsAfterBody (env : Env) : Bool :=
  match env.mkdirOutcome with
  | .ok _ => true
  | .error _ => false

/-- The finally-block of decompile_binary: if the directory exists,
shutil.rmtree it with ignore_errors=True; a failing removal is suppressed
and leaves the directory in place; when the directory does not exist the
block is a no-op.  Returns whether the directory exists afterwards. -/
def runCleanup (wsExists rmtreeFails : Bool) : Bool :=
  if wsExists then (if rmtreeFails then wsExists else false) else wsExists

/-- GhidraDecompiler.decompile_binary: run the try-block, convert an
escaping exception into the handled error dictionary, and always run the
finally-block cleanup.  Returns the result dictionary (the call itself
never raises) together with whether the workspace directory still exists. -/
def decompile_binary (env : Env) : DecompileResult × Bool :=
  let result : DecompileResult :=
    match decompileBody env with
    | .ok r => r
    | .error e => exceptionResult e
  (result, runCleanup (wsAfterBody env) env.rmtreeFails)

/-! ### Basic lemmas about the string model -/

theorem isPrefixOf_eq_true_iff {l s : Str} :
    l.isPrefixOf s = true ↔ ∃ t, s = l ++ t := by
  induction l generalizing s with
  | nil => simp [List.isPrefixOf]
  | cons a l ih =>
    cases s with
    | nil => simp [List.isPrefixOf]
    | cons b s =>
      simp only [List.isPrefixOf, Bool.and_eq_true, beq_iff_eq, ih, List.cons_append]
      constructor
      · rintro ⟨rfl, t, rfl⟩; exact ⟨t, rfl⟩
      · rintro ⟨t, h⟩
        injection h with h1 h2
        exact ⟨h1.symm, t, h2⟩

theorem containsSub_eq_true_iff {pat s : Str} :
    containsSub pat s = true ↔ ∃ x y, s = x ++ pat ++ y := by
  induction s with
  | nil =>
    simp only [containsSub, List.isEmpty_iff]
    constructor
    · rintro rfl; exact ⟨[], [], rfl⟩
    · rintro ⟨x, y, h⟩
      rcases List.append_eq_nil.mp h.symm with ⟨h1, h2⟩
      exact (List.append_eq_nil.mp h1).2
  | cons c rest ih =>
    simp only [containsSub, Bool.or_eq_true, isPrefixOf_eq_true_iff, ih]
    constructor
    · rintro (⟨t, h⟩ | ⟨x, y, h⟩)
      · exact ⟨[], t, by simp [h]⟩
      · exact ⟨c :: x, y, by simp [h]⟩
    · rintro ⟨x, y, h⟩
      cases x with
      | nil => exact Or.inl ⟨y, by simpa using h⟩
      | cons a x =>
        injection h with h1 h2
        exact Or.inr ⟨x, y, h2⟩

/-! ### Lemmas: decimal rendering is injective -/

theorem natStrAux_eq_digits (fuel n : Nat) (h : n < fuel) :
    natStrAux fuel n = ((Nat.digits 10 n).map digitChar).reverse := by
  induction fuel generalizing n with
  | zero => omega
  | succ fuel ih =>
    by_cases h0 : n = 0
    · subst h0; simp [natStrAux]
    · have hdiv : n / 10 < fuel := by
        have := Nat.div_lt_self (Nat.pos_of_ne_zero h0) (by norm_num : 1 < 10)
        omega
      rw [natStrAux, if_neg h0, ih (n / 10) hdiv,
        Nat.digits_def' (by norm_num : 1 < 10) (Nat.pos_of_ne_zero h0)]
      simp

theorem digitChar_inj_lt : ∀ d < 10, ∀ e < 10, digitChar d = digitChar e → d = e := by
  decide

theorem map_digitChar_inj : ∀ l1 l2 : List Nat,
    (∀ d ∈ l1, d < 10) → (∀ d ∈ l2, d < 10) →
    l1.map digitChar = l2.map digitChar → l1 = l2
  | [], [], _, _, _ => rfl
  | [], _ :: _, _, _, h => by simp at h
  | _ :: _, [], _, _, h => by simp at h
  | a :: l1, b :: l2, h1, h2, h => by
    simp only [List.map_cons, List.cons.injEq] at h
    have hab : a = b :=
      digitChar_inj_lt a (h1 a (List.mem_cons_self a l1)) b (h2 b (List.mem_cons_self b l2)) h.1
    subst hab
    rw [map_digitChar_inj l1 l2 (fun d hd => h1 d (List.mem_cons_of_mem a hd))
      (fun d hd => h2 d (List.mem_cons_of_mem a hd)) h.2]

theorem natStr_ne_zero_render (b : Nat) (hb : b ≠ 0) :
    natStrAux (b + 1) b ≠ [digitChar 0] := by
  rw [natStrAux_eq_digits (b + 1) b (Nat.lt_succ_self b)]
  intro h
  have h1 : (Nat.digits 10 b).map digitChar = [digitChar 0] := by
    have := congrArg List.reverse h
    simpa using this
  rcases hdig : Nat.digits 10 b with _ | ⟨d, t⟩
  · rw [hdig] at h1; simp at h1
  · rw [hdig] at h1
    simp only [List.map_cons, List.cons.injEq, List.map_eq_nil_iff] at h1
    have hd10 : d < 10 :=
      Nat.digits_lt_base (by norm_num : 1 < 10) (by rw [hdig]; exact List.mem_cons_self d t)
    have hd0 : d = 0 := digitChar_inj_lt d hd10 0 (by norm_num) h1.1
    have hb' : b = Nat.ofDigits 10 (Nat.digits 10 b) := (Nat.ofDigits_digits 10 b).symm
    rw [hdig, h1.2, hd0] at hb'
    simp [Nat.ofDigits] at hb'
    exact hb hb'

theorem natStr_injective {a b : Nat} (h : natStr a = natStr b) : a = b := by
  unfold natStr at h
  by_cases ha : a = 0 <;> by_cases hb : b = 0
  · omega
  · rw [if_pos ha, if_neg hb] at h
    exact absurd h.symm (natStr_ne_zero_render b hb)
  · rw [if_neg ha, if_pos hb] at h
    exact absurd h (natStr_ne_zero_render a ha)
  · rw [if_neg ha, if_neg hb,
      natStrAux_eq_digits (a + 1) a (Nat.lt_succ_self a),
      natStrAux_eq_digits (b + 1) b (Nat.lt_succ_self b)] at h
    have h2 : (Nat.digits 10 a).map digitChar = (Nat.digits 10 b).map digitChar :=
      List.reverse_injective h
    have h3 : Nat.digits 10 a = Nat.digits 10 b :=
      map_digitChar_inj _ _
        (fun d hd => Nat.digits_lt_base (by norm_num : 1 < 10) hd)
        (fun d hd => Nat.digits_lt_base (by norm_num : 1 < 10) hd) h2
    calc a = Nat.ofDigits 10 (Nat.digits 10 a) := (Nat.ofDigits_digits 10 a).symm
      _ = Nat.ofDigits 10 (Nat.digits 10 b) := by rw [h3]
      _ = b := Nat.ofDigits_digits 10 b

/-! ### Claim C1 -/

/-- C1 counterexample: two distinct analysis requests (distinct binary
paths and filenames) handled by the same host process are mapped to the
very same workspace directory, so the directory is shared between the two
requests, contradicting the claimed per-request uniqueness. -/
theorem c1_counterexample :
    (str ("/tmp/up/a.bin"), str ("a.bin")) ≠ (str ("/tmp/up/b.bin"), str ("b.bin")) ∧
    projectDir 4242 (str ("/tmp/up/a.bin")) (str ("a.bin"))
      = projectDir 4242 (str ("/tmp/up/b.bin")) (str ("b.bin")) :=
  ⟨by decide, rfl⟩

/-- C1 (amended): the workspace directory name is unique per process, not
per request: every two requests handled by the same host process receive
the identical workspace directory, while requests handled by processes
with distinct pids receive distinct directories. -/
theorem c1_workspace_dir_per_process (pid pid2 : Nat) (bp1 fn1 bp2 fn2 : Str) :
    projectDir pid bp1 fn1 = projectDir pid bp2 fn2 ∧
    (pid ≠ pid2 → projectDir pid bp1 fn1 ≠ projectDir pid2 bp2 fn2) := by
  refine ⟨rfl, fun hne he => hne ?_⟩
  apply natStr_injective
  have he2 : (str ("/tmp/ghidra_projects/") ++ str ("temp_project_")) ++ natStr pid
      = (str ("/tmp/ghidra_projects/") ++ str ("temp_project_")) ++ natStr pid2 := by
    simpa [projectDir, projectName, List.append_assoc] using he
  exact List.append_cancel_left he2

/-- Witness for C1 (amended) at concrete inputs: process 7 maps two
distinct requests to one directory, and processes 7 and 8 map requests to
distinct directories. -/
theorem c1_workspace_dir_per_process_witness :
    projectDir 7 (str ("/tmp/a")) (str ("a")) = projectDir 7 (str ("/tmp/b")) (str ("b")) ∧
    projectDir 7 (str ("/tmp/a")) (str ("a")) ≠ projectDir 8 (str ("/tmp/b")) (str ("b")) :=
  ⟨(c1_workspace_dir_per_process 7 8 (str ("/tmp/a")) (str ("a")) (str ("/tmp/b")) (str ("b"))).1,
   (c1_workspace_dir_per_process 7 8 (str ("/tmp/a")) (str ("a")) (str ("/tmp/b")) (str ("b"))).2
     (by decide)⟩

/-! ### Claim C2 -/

/-- C2: on every exit path of decompile_binary (normal success, tool
failure, raised exception in any step — all captured by the universally
quantified step environment), the finally-block removes the workspace
directory before the call returns whenever removal itself succeeds; a
removal failure is suppressed and never changes the returned outcome (the
call returns a result dictionary in the model, so it cannot raise); and
the cleanup applied to an already-removed workspace is a no-op. -/
theorem c2_cleanup_every_path (env : Env) :
    (decompile_binary env).1 = (decompile_binary { env with rmtreeFails := false }).1 ∧
    (env.rmtreeFails = false → (decompile_binary env).2 = false) ∧
    runCleanup false env.rmtreeFails = false := by
  refine ⟨by cases env; rfl, ?_, by simp [runCleanup]⟩
  intro h
  simp only [decompile_binary, runCleanup, h]
  cases wsAfterBody env <;> simp

/-- Witness for C2 at a concrete environment whose script step raises. -/
theorem c2_cleanup_every_path_witness :
    (decompile_binary
      { mkdirOutcome := .ok ()
        scriptOutcome := .error (str ("boom"))
        runOutcome := .ok (true, [], [])
        parseOutcome := .ok ({ assembly_code := [], decompiled_code := [], metadata := [] }, [])
        rmtreeFails := false }).2 = false :=
  (c2_cleanup_every_path _).2.1 rfl

/-! ### Claim C4 -/

/-- C4: for a run whose child process does not exit before the 300 second
deadline, the child is killed and then awaited, so it ends killed and
reaped (never orphaned, never a zombie); the run call returns the timeout
failure triple instead of raising; the orchestrated call then returns a
negative outcome whose error text is the timeout message; and that
message is classified into the timeout category. -/
theorem c4_timeout_path (env : Env)
    (hm : env.mkdirOutcome = .ok ())
    (hs : env.scriptOutcome = .ok ())
    (hr : env.runOutcome = .ok (run_ghidra_analysis .timesOut).1) :
    run_ghidra_analysis .timesOut = ((false, [], timeoutMessage), .killedReaped) ∧
    (decompile_binary env).1.success = false ∧
    (decompile_binary env).1.errorMsg
      = some (str ("Ghidra analysis failed: ") ++ timeoutMessage) ∧
    classifySpec timeoutMessage = .timeoutCat := by
  refine ⟨rfl, ?_, ?_, by decide⟩ <;>
    simp [decompile_binary, decompileBody, hm, hs, hr, run_ghidra_analysis,
      runFailureResult, Except.bind]

/-- Witness for C4 at a concrete environment. -/
theorem c4_timeout_path_witness :
    (decompile_binary
      { mkdirOutcome := .ok ()
        scriptOutcome := .ok ()
        runOutcome := .ok (run_ghidra_analysis .timesOut).1
        parseOutcome := .ok ({ assembly_code := [], decompiled_code := [], metadata := [] }, [])
        rmtreeFails := false }).1.success = false :=
  (c4_timeout_path _ rfl rfl rfl).2.1

/-! ### Claim C3 -/

/-- C3: for every run, the success judgment holds exactly when the exit
code is zero, or the benign-filtered stderr is empty and stdout contains
the completion marker (the equivalence is unconditional, so in
particular a nonzero exit with clean stderr but no marker in stdout is
judged a failure); and for any stderr consisting of a version-banner
line followed by a headless-mode warning line, with the marker in
stdout, the run is judged successful for every exit code, including
nonzero ones. -/
theorem c3_success_predicate (rc : Int) (stdoutStr banner warn : Str)
    (hb : (str ("openjdk version")).isPrefixOf (pyLower (pyStrip banner)) = true)
    (hbn : ('\n') ∉ banner)
    (hw1 : (str ("warning:")).isPrefixOf (pyLower (pyStrip warn)) = true)
    (hw2 : containsSub (str ("headless")) ((pyLower (pyStrip warn)).drop 8) = true)
    (hwn : ('\n') ∉ warn)
    (hout : containsSub completionMarker stdoutStr = true) :
    (∀ (rc2 : Int) (stdout2 stderr2 : Str),
      runSuccess rc2 stdout2 stderr2 = true ↔
        rc2 = 0 ∨ (filter_stderr_output stderr2 = [] ∧
          ∃ x y, stdout2 = x ++ completionMarker ++ y)) ∧
    runSuccess rc stdoutStr (banner ++ '\n' :: warn) = true := by
  constructor
  · intro rc2 stdout2 stderr2
    simp [runSuccess, containsSub_eq_true_iff, List.isEmpty_iff]
  · have hsplit : (banner ++ '\n' :: warn).splitOn '\n' = [banner, warn] := by
      show (banner ++ '\n' :: warn).splitOnP (· == '\n') = [banner, warn]
      rw [List.splitOnP_first _ banner
        (fun x hx h => by simp only [beq_iff_eq] at h; subst h; exact hbn hx)
        '\n' (by simp) warn]
      rw [List.splitOnP_eq_single _ _
        (fun x hx h => by simp only [beq_iff_eq] at h; subst h; exact hwn hx)]
    have hmb : matchesIgnorePattern (pyStrip banner) = true := by
      simp [matchesIgnorePattern, hb]
    have hmw : matchesIgnorePattern (pyStrip warn) = true := by
      simp [matchesIgnorePattern, hw1, hw2]
    have hfilter : filter_stderr_output (banner ++ '\n' :: warn) = [] := by
      rw [filter_stderr_output, if_neg (by simp)]
      simp [hsplit, hmb, hmw, List.intercalate]
    simp [runSuccess, hfilter, hout]

/-- Witness for C3: the equivalence instantiated at a marker-less stdout
with nonzero exit code and empty stderr (both sides false, exercising the
only-if direction), and a nonzero exit code with a real version banner
and headless warning on stderr and the completion marker on stdout being
judged successful. -/
theorem c3_success_predicate_witness :
    (runSuccess 1 (str ("no marker here")) [] = true ↔
      (1 : Int) = 0 ∨ (filter_stderr_output [] = [] ∧
        ∃ x y, str ("no marker here") = x ++ completionMarker ++ y)) ∧
    runSuccess 1
      (str ("INFO  Decompilation completed successfully - processed 3 functions"))
      (str ("openjdk version \"17.0.1\" 2021-10-19") ++ '\n' ::
        str ("WARNING: Java is running in headless mode")) = true :=
  ⟨(c3_success_predicate 1
      (str ("INFO  Decompilation completed successfully - processed 3 functions"))
      (str ("openjdk version \"17.0.1\" 2021-10-19"))
      (str ("WARNING: Java is running in headless mode"))
      (by decide) (by decide) (by decide) (by decide) (by decide) (by decide)).1
      1 (str ("no marker here")) [],
   (c3_success_predicate 1
      (str ("INFO  Decompilation completed successfully - processed 3 functions"))
      (str ("openjdk version \"17.0.1\" 2021-10-19"))
      (str ("WARNING: Java is running in headless mode"))
      (by decide) (by decide) (by decide) (by decide) (by decide) (by decide)).2⟩

/-! ### Claim C5 -/

theorem append_ne_of_rev_mismatch {c s y : Str}
    (h : (s.reverse).isPrefixOf y.reverse = false) : c ++ s ≠ y := by
  intro he
  have h2 : (s.reverse).isPrefixOf y.reverse = true :=
    isPrefixOf_eq_true_iff.mpr ⟨c.reverse, by rw [← he, List.reverse_append]⟩
  rw [h2] at h
  exact Bool.noConfusion h

theorem classifySpec_ite (e : Str) :
    classifySpec e =
      (if containsSub (str ("java")) (pyLower e) && containsSub (str ("not found")) (pyLower e) then
        ErrorCategory.missingRuntime
      else if containsSub (str ("ghidra")) (pyLower e) &&
          (containsSub (str ("not found")) (pyLower e) || containsSub (str ("no such file")) (pyLower e)) then
        ErrorCategory.missingTool
      else if containsSub (str ("timeout")) (pyLower e) || containsSub (str ("timed out")) (pyLower e) then
        ErrorCategory.timeoutCat
      else if containsSub (str ("permission")) (pyLower e) || containsSub (str ("denied")) (pyLower e) then
        ErrorCategory.permissionDenied
      else if containsSub (str ("memory")) (pyLower e) || containsSub (str ("heap")) (pyLower e) then
        ErrorCategory.outOfMemory
      else if containsSub (str ("unsupported")) (pyLower e) || containsSub (str ("unknown format")) (pyLower e) then
        ErrorCategory.unsupportedFormat
      else ErrorCategory.generic) := by
  unfold classifySpec priorityOrder
  split_ifs <;> simp [List.find?, categoryMatches, *]

/-- C5: error classification agrees with the specification's first-match
scan of the fixed priority order (missing-runtime-dependency,
missing-tool-installation, timeout, permission-denied, out-of-memory,
unsupported-format, generic) over the case-folded error text; it is a
total function of the error text, and any unmatched text resolves to the
generic response, whose message carries the original error text
verbatim. -/
theorem c5_error_classification (e c : Str) :
    responseCategory (handle_ghidra_error e c) = classifySpec e ∧
    (classifySpec e = ErrorCategory.generic →
      handle_ghidra_error e c =
        { success := false
          error := c ++ str (" failed")
          message := str ("An error occurred during ") ++ pyLower c ++ str (": ") ++ e
          suggestion := str ("Please check the binary file and try again") }) := by
  have hne1 : c ++ str (" failed") ≠ str ("Java runtime not found") :=
    append_ne_of_rev_mismatch (by decide)
  have hne2 : c ++ str (" failed") ≠ str ("Ghidra installation not found") :=
    append_ne_of_rev_mismatch (by decide)
  have hne3 : c ++ str (" failed") ≠ str ("Analysis timeout") :=
    append_ne_of_rev_mismatch (by decide)
  have hne4 : c ++ str (" failed") ≠ str ("Permission denied") :=
    append_ne_of_rev_mismatch (by decide)
  have hne5 : c ++ str (" failed") ≠ str ("Insufficient memory") :=
    append_ne_of_rev_mismatch (by decide)
  have hne6 : c ++ str (" failed") ≠ str ("Unsupported binary format") :=
    append_ne_of_rev_mismatch (by decide)
  rw [classifySpec_ite]
  simp only [handle_ghidra_error]
  split_ifs <;>
    first
      | exact ⟨by decide, fun h => absurd h (by decide)⟩
      | exact ⟨by simp [responseCategory, hne1, hne2, hne3, hne4, hne5, hne6], fun _ => rfl⟩

/-- Witness for C5: an unmatched error text resolves to the generic
response, with the original text preserved verbatim in the message. -/
theorem c5_error_classification_witness :
    responseCategory
        (handle_ghidra_error (str ("entirely mysterious problem")) (str ("Binary decompilation")))
      = classifySpec (str ("entirely mysterious problem")) ∧
    handle_ghidra_error (str ("entirely mysterious problem")) (str ("Binary decompilation"))
      = { success := false
          error := str ("Binary decompilation") ++ str (" failed")
          message := str ("An error occurred during ") ++ pyLower (str ("Binary decompilation"))
            ++ str (": ") ++ str ("entirely mysterious problem")
          suggestion := str ("Please check the binary file and try again") } :=
  ⟨(c5_error_classification (str ("entirely mysterious problem")) (str ("Binary decompilation"))).1,
   (c5_error_classification (str ("entirely mysterious problem")) (str ("Binary decompilation"))).2
     (by decide)⟩

/-! ### Claim C6 -/

theorem takeWhile_middle {p : Char → Bool} :
    ∀ (k : Str) (x : Char) (v : Str), (∀ c ∈ k, p c = true) → p x = false →
      (k ++ x :: v).takeWhile p = k
  | [], x, v, _, hx => by simp [List.takeWhile_cons, hx]
  | c :: k, x, v, hk, hx => by
    have hc : p c = true := hk c (List.mem_cons_self c k)
    simp only [List.cons_append, List.takeWhile_cons, hc, if_true]
    rw [takeWhile_middle k x v (fun d hd => hk d (List.mem_cons_of_mem c hd)) hx]

theorem dropWhile_middle {p : Char → Bool} :
    ∀ (k : Str) (x : Char) (v : Str), (∀ c ∈ k, p c = true) → p x = false →
      (k ++ x :: v).dropWhile p = x :: v
  | [], x, v, _, hx => by simp [List.dropWhile_cons, hx]
  | c :: k, x, v, hk, hx => by
    have hc : p c = true := hk c (List.mem_cons_self c k)
    simp only [List.cons_append, List.dropWhile_cons, hc, if_true]
    exact dropWhile_middle k x v (fun d hd => hk d (List.mem_cons_of_mem c hd)) hx

theorem parseMetadataLine_colon (d : List (Str × Str)) (k v : Str)
    (hk : ∀ ch ∈ k, ch ≠ ':') :
    parseMetadataLine d (k ++ ':' :: v) = dictInsert (normalizeKey k) (pyStrip v) d := by
  have hkb : ∀ c ∈ k, (c != ':') = true := fun c hc => by
    simp only [bne_iff_ne, ne_eq]; exact hk c hc
  have hcolon : (k ++ ':' :: v).contains ':' = true := by
    simp [List.elem_iff]
  rw [parseMetadataLine, if_pos hcolon,
    takeWhile_middle k ':' v hkb (by decide),
    dropWhile_middle k ':' v hkb (by decide)]
  simp

/-- C6: metadata parsing is line oriented: a line without a colon leaves
the mapping unchanged; a line with a colon is split at the first colon,
the key is normalized (stripped, lowercased, internal spaces replaced by
underscores) and the stripped value is inserted; and the two example
lines, Program colon foo and Language colon x86:LE:32:default, yield the
entries program mapped to foo and language mapped to the full
colon-bearing value. -/
theorem c6_metadata_parsing :
    (∀ (d : List (Str × Str)) (line : Str), line.contains ':' = false →
      parseMetadataLine d line = d) ∧
    (∀ (d : List (Str × Str)) (k v : Str), (∀ ch ∈ k, ch ≠ ':') →
      parseMetadataLine d (k ++ ':' :: v) = dictInsert (normalizeKey k) (pyStrip v) d) ∧
    dictGet (str ("program"))
      (parseMetadata (str ("Program: foo\nLanguage: x86:LE:32:default")) [])
      = some (str ("foo")) ∧
    dictGet (str ("language"))
      (parseMetadata (str ("Program: foo\nLanguage: x86:LE:32:default")) [])
      = some (str ("x86:LE:32:default")) := by
  refine ⟨?_, parseMetadataLine_colon, by decide, by decide⟩
  intro d line h
  rw [parseMetadataLine, if_neg]
  rw [h]
  exact Bool.false_ne_true

/-- Witness for C6: a colon-free line is ignored, and a line with a spaced
mixed-case key and padded value inserts the normalized binding. -/
theorem c6_metadata_parsing_witness :
    parseMetadataLine [] (str ("no colon here")) = [] ∧
    parseMetadataLine [] (str ("Address Size") ++ ':' :: str (" 32"))
      = dictInsert (normalizeKey (str ("Address Size"))) (pyStrip (str (" 32"))) [] :=
  ⟨c6_metadata_parsing.1 [] (str ("no colon here")) (by decide),
   c6_metadata_parsing.2.1 [] (str ("Address Size")) (str (" 32")) (by decide)⟩

/-! ### Claims C7 and C10 -/

/-- C7: when the filesystem probes raise nothing, validation reports
invalid exactly when the file is absent, empty, or over the 100 MB
ceiling, with a diagnostic naming the cause; and a present, nonempty,
within-limit file whose magic prefix matches no known signature is still
accepted, with the cautionary diagnostic. -/
theorem c7_validate_accept_reject (p : FileProbe) (n : Nat) (magic : List Nat)
    (hs : p.sizeResult = .ok n) (hr : p.readResult = .ok magic) :
    ((validate_binary_file p).1 = false ↔
      p.pathExists = false ∨ n = 0 ∨ n > maxFileSize) ∧
    (p.pathExists = false →
      validate_binary_file p = (false, str ("File does not exist"))) ∧
    (p.pathExists = true → n = 0 →
      validate_binary_file p = (false, str ("File is empty"))) ∧
    (p.pathExists = true → n ≠ 0 → n > maxFileSize →
      validate_binary_file p = (false, str ("File too large (max 100MB)"))) ∧
    (p.pathExists = true → n ≠ 0 → n ≤ maxFileSize →
      (∀ sig ∈ binaryMagics, sig.isPrefixOf magic = false) →
      validate_binary_file p
        = (true, str ("File format not clearly identified, proceeding with caution"))) := by
  cases hpe : p.pathExists with
  | false =>
    refine ⟨?_, fun _ => ?_, fun h => absurd h Bool.false_ne_true,
      fun h => absurd h Bool.false_ne_true,
      fun h => absurd h Bool.false_ne_true⟩ <;>
      simp [validate_binary_file, hpe]
  | true =>
    simp only [validate_binary_file, hpe, Bool.not_true, Bool.false_eq_true, if_false, hs, hr]
    refine ⟨?_, by simp, fun _ h0 => by simp [h0], fun _ h0 hbig => ?_, fun _ h0 hle hsig => ?_⟩
    · split_ifs with h0 hbig hsig <;> simp_all
    · rw [if_neg h0, if_pos hbig]
    · have hsig2 : ∀ sig ∈ binaryMagics, ¬sig <+: magic := fun sig hsg hp =>
        absurd (List.isPrefixOf_iff_prefix.mpr hp) (by rw [hsig sig hsg]; exact Bool.false_ne_true)
      rw [if_neg h0, if_neg (by omega), if_neg (by simpa using hsig2)]

/-- Witness for C7: a present 4-byte file with an unrecognized magic is
accepted with the caution diagnostic. -/
theorem c7_validate_accept_reject_witness :
    validate_binary_file
        { pathExists := true, sizeResult := .ok 4, readResult := .ok [1, 2, 3, 4] }
      = (true, str ("File format not clearly identified, proceeding with caution")) :=
  (c7_validate_accept_reject
    { pathExists := true, sizeResult := .ok 4, readResult := .ok [1, 2, 3, 4] }
    4 [1, 2, 3, 4] rfl rfl).2.2.2.2 rfl (by decide) (by decide) (by decide)

/-- C10: validation is total at its interface: it always returns a pair,
and when a probed step raises (size query, or the magic read on a
present, nonempty, within-limit file) the exception is caught and turned
into an invalid verdict whose diagnostic carries the underlying error
text. -/
theorem c10_validate_total (p : FileProbe) (e : Str) :
    (∃ b s, validate_binary_file p = (b, s)) ∧
    (p.pathExists = true → p.sizeResult = .error e →
      validate_binary_file p = (false, str ("Error validating file: ") ++ e)) ∧
    (∀ n, p.pathExists = true → p.sizeResult = .ok n → n ≠ 0 → n ≤ maxFileSize →
      p.readResult = .error e →
      validate_binary_file p = (false, str ("Error validating file: ") ++ e)) := by
  refine ⟨⟨_, _, rfl⟩, fun hpe hs => ?_, fun n hpe hs h0 hle hr => ?_⟩
  · simp [validate_binary_file, hpe, hs]
  · simp only [validate_binary_file, hpe, Bool.not_true, Bool.false_eq_true, if_false, hs, hr]
    rw [if_neg h0, if_neg (by omega)]

/-- Witness for C10: a probe whose size query raises yields the invalid
verdict carrying the error text. -/
theorem c10_validate_total_witness :
    validate_binary_file
        { pathExists := true, sizeResult := .error (str ("Input/output error"))
          readResult := .ok [] }
      = (false, str ("Error validating file: ") ++ str ("Input/output error")) :=
  (c10_validate_total
    { pathExists := true, sizeResult := .error (str ("Input/output error")), readResult := .ok [] }
    (str ("Input/output error"))).2.1 rfl rfl

/-! ### Claim C9 -/

/-- C9: when the run satisfies the success predicate but both code-bearing
artifacts parse to empty text, the parser logs the empty-result diagnostic
and the orchestrated call still returns a successful outcome (success set,
no error field), not a failure. -/
theorem c9_degraded_success (ws : WorkspaceFiles) (fn stdoutS stderrS : Str) (env : Env)
    (hasm : (parse_results ws fn).1.assembly_code = [])
    (hdec : (parse_results ws fn).1.decompiled_code = [])
    (hm : env.mkdirOutcome = .ok ())
    (hscript : env.scriptOutcome = .ok ())
    (hrun : env.runOutcome = .ok (true, stdoutS, stderrS))
    (hparse : env.parseOutcome = .ok (parse_results ws fn)) :
    emptyResultWarning ∈ (parse_results ws fn).2 ∧
    (decompile_binary env).1.success = true ∧
    (decompile_binary env).1.errorMsg = none := by
  refine ⟨?_, ?_, ?_⟩
  · rcases ws with ⟨af, df, mf⟩
    cases af <;> cases df <;> cases mf <;>
      simp_all [parse_results, emptyResultWarning]
  · simp [decompile_binary, decompileBody, hm, hscript, hrun, hparse, Except.bind]
  · simp [decompile_binary, decompileBody, hm, hscript, hrun, hparse, Except.bind]

/-- Witness for C9 at a concrete workspace whose artifact files are all
empty and a concrete successful run environment. -/
theorem c9_degraded_success_witness :
    emptyResultWarning ∈
      (parse_results
        { assemblyFile := some [], decompiledFile := some [], metadataFile := some [] }
        (str ("f.bin"))).2 ∧
    (decompile_binary
      { mkdirOutcome := .ok ()
        scriptOutcome := .ok ()
        runOutcome := .ok (true, str ("Decompilation completed successfully"), [])
        parseOutcome := .ok (parse_results
          { assemblyFile := some [], decompiledFile := some [], metadataFile := some [] }
          (str ("f.bin")))
        rmtreeFails := false }).1.success = true :=
  ⟨(c9_degraded_success
      { assemblyFile := some [], decompiledFile := some [], metadataFile := some [] }
      (str ("f.bin")) (str ("Decompilation completed successfully")) []
      { mkdirOutcome := .ok ()
        scriptOutcome := .ok ()
        runOutcome := .ok (true, str ("Decompilation completed successfully"), [])
        parseOutcome := .ok (parse_results
          { assemblyFile := some [], decompiledFile := some [], metadataFile := some [] }
          (str ("f.bin")))
        rmtreeFails := false }
      (by decide) (by decide) rfl rfl rfl rfl).1,
   (c9_degraded_success
      { assemblyFile := some [], decompiledFile := some [], metadataFile := some [] }
      (str ("f.bin")) (str ("Decompilation completed successfully")) []
      { mkdirOutcome := .ok ()
        scriptOutcome := .ok ()
        runOutcome := .ok (true, str ("Decompilation completed successfully"), [])
        parseOutcome := .ok (parse_results
          { assemblyFile := some [], decompiledFile := some [], metadataFile := some [] }
          (str ("f.bin")))
        rmtreeFails := false }
      (by decide) (by decide) rfl rfl rfl rfl).2.1⟩

/-! ### Claim C8 -/

theorem pyStrip_sublist (s : Str) : (pyStrip s).Sublist s := by
  have h1 : (s.dropWhile pyIsSpace).reverse.dropWhile pyIsSpace <:+ (s.dropWhile pyIsSpace).reverse :=
    List.dropWhile_suffix pyIsSpace
  have h2 : pyStrip s <+: s.dropWhile pyIsSpace := by
    rw [pyStrip]
    rw [← List.reverse_reverse (s.dropWhile pyIsSpace)]
    exact List.reverse_prefix.mpr (by rw [List.reverse_reverse]; exact h1)
  exact h2.sublist.trans (List.dropWhile_suffix pyIsSpace).sublist

theorem pyStrip_eq_self_of_length (s : Str) (h : (pyStrip s).length = s.length) :
    pyStrip s = s :=
  (pyStrip_sublist s).eq_of_length h

theorem length_pyStrip_le_dropWhile (s : Str) :
    (pyStrip s).length ≤ (s.dropWhile pyIsSpace).length := by
  rw [pyStrip, List.length_reverse]
  calc ((s.dropWhile pyIsSpace).reverse.dropWhile pyIsSpace).length
      ≤ (s.dropWhile pyIsSpace).reverse.length :=
        (List.dropWhile_suffix pyIsSpace).sublist.length_le
    _ = (s.dropWhile pyIsSpace).length := List.length_reverse _

theorem dropWhile_eq_self_of_pyStrip {s : Str} (h : pyStrip s = s) :
    s.dropWhile pyIsSpace = s := by
  apply (List.dropWhile_suffix pyIsSpace).sublist.eq_of_length
  have h1 : (pyStrip s).length ≤ (s.dropWhile pyIsSpace).length :=
    length_pyStrip_le_dropWhile s
  have h2 : (s.dropWhile pyIsSpace).length ≤ s.length :=
    (List.dropWhile_suffix pyIsSpace).sublist.length_le
  rw [h] at h1
  omega

theorem dropWhile_reverse_eq_of_pyStrip {s : Str} (h : pyStrip s = s) :
    s.reverse.dropWhile pyIsSpace = s.reverse := by
  have h1 : pyStrip s = (s.reverse.dropWhile pyIsSpace).reverse := by
    rw [pyStrip, dropWhile_eq_self_of_pyStrip h]
  have h2 : (s.reverse.dropWhile pyIsSpace).reverse = s := by rw [← h1, h]
  calc s.reverse.dropWhile pyIsSpace
      = ((s.reverse.dropWhile pyIsSpace).reverse).reverse := (List.reverse_reverse _).symm
    _ = s.reverse := by rw [h2]

theorem head_not_space_of_dropWhile_eq {c : Char} {t : Str}
    (h : (c :: t).dropWhile pyIsSpace = c :: t) : pyIsSpace c = false := by
  by_contra hc
  rw [List.dropWhile_cons, if_pos (by simpa using hc)] at h
  have := congrArg List.length h
  have hle : (t.dropWhile pyIsSpace).length ≤ t.length :=
    (List.dropWhile_suffix pyIsSpace).sublist.length_le
  simp at this
  omega

theorem dropWhile_append_of_head {c : Char} {t rest : Str}
    (hc : pyIsSpace c = false) :
    ((c :: t) ++ rest).dropWhile pyIsSpace = (c :: t) ++ rest := by
  rw [List.cons_append, List.dropWhile_cons, if_neg (by simp [hc])]

theorem pyStrip_space_cons {v : Str} (h : pyStrip v = v) : pyStrip (' ' :: v) = v := by
  rw [pyStrip, List.dropWhile_cons, if_pos (by decide),
    dropWhile_eq_self_of_pyStrip h, dropWhile_reverse_eq_of_pyStrip h,
    List.reverse_reverse]

theorem normalizeKey_fix_strip {k : Str} (h : normalizeKey k = k) : pyStrip k = k := by
  apply pyStrip_eq_self_of_length
  have h1 : (normalizeKey k).length = (pyStrip k).length := by
    simp [normalizeKey, pyReplaceChar, pyLower]
  rw [h] at h1
  omega

theorem pyStrip_wrap {icl : Str}
    (hL : icl.dropWhile pyIsSpace = icl)
    (hR : icl.reverse.dropWhile pyIsSpace = icl.reverse) :
    pyStrip (icl ++ ['\n']) = icl := by
  cases icl with
  | nil => decide
  | cons c t =>
    have hc : pyIsSpace c = false := head_not_space_of_dropWhile_eq hL
    rw [pyStrip, dropWhile_append_of_head hc]
    rw [List.reverse_append]
    show ((['\n'] ++ (c :: t).reverse).dropWhile pyIsSpace).reverse = c :: t
    rw [List.cons_append, List.dropWhile_cons, if_pos (by decide), List.nil_append,
      hR, List.reverse_reverse]

theorem intercalate_cons_head :
    ∀ (l : Str) (ls : List Str), ∃ A, (['\n'] : Str).intercalate (l :: ls) = l ++ A
  | l, [] => ⟨[], by simp [List.intercalate, List.intersperse]⟩
  | l, m :: ms => by
    refine ⟨['\n'] ++ (['\n'] : Str).intercalate (m :: ms), ?_⟩
    simp [List.intercalate, List.intersperse]

theorem serializeMetadata_eq_intercalate :
    ∀ (kvs : List (Str × Str)), kvs ≠ [] →
      serializeMetadata kvs = (['\n'] : Str).intercalate (kvs.map lineOf) ++ ['\n']
  | [], h => absurd rfl h
  | [kv], _ => by
    simp [serializeMetadata, lineOf, List.intercalate, List.intersperse]
  | kv :: kv2 :: rest, _ => by
    have ih := serializeMetadata_eq_intercalate (kv2 :: rest) (by simp)
    have hser : serializeMetadata (kv :: kv2 :: rest)
        = (lineOf kv ++ ['\n']) ++ serializeMetadata (kv2 :: rest) := by
      simp [serializeMetadata, lineOf]
    have hint : (['\n'] : Str).intercalate (lineOf kv :: lineOf kv2 :: rest.map lineOf)
        = lineOf kv ++ ['\n'] ++ (['\n'] : Str).intercalate (lineOf kv2 :: rest.map lineOf) := by
      simp [List.intercalate, List.intersperse]
    rw [hser, ih]
    simp only [List.map_cons]
    rw [hint]
    simp [List.append_assoc]

theorem intercalate_dropWhile_fixed {c : Char} {t : Str} (ls : List Str)
    (hc : pyIsSpace c = false) :
    ((['\n'] : Str).intercalate ((c :: t) :: ls)).dropWhile pyIsSpace
      = (['\n'] : Str).intercalate ((c :: t) :: ls) := by
  obtain ⟨A, hA⟩ := intercalate_cons_head (c :: t) ls
  rw [hA]
  exact dropWhile_append_of_head hc

theorem intercalate_reverse_dropWhile_fixed :
    ∀ (lines : List Str), lines ≠ [] →
      (∀ l ∈ lines, l ≠ [] ∧ l.reverse.dropWhile pyIsSpace = l.reverse) →
      ((['\n'] : Str).intercalate lines).reverse.dropWhile pyIsSpace
        = ((['\n'] : Str).intercalate lines).reverse
  | [], h, _ => absurd rfl h
  | [l], _, hl => by
    have h := (hl l (by simp)).2
    simpa [List.intercalate, List.intersperse] using h
  | l :: m :: ms, _, hl => by
    have ih := intercalate_reverse_dropWhile_fixed (m :: ms) (by simp)
      (fun x hx => hl x (List.mem_cons_of_mem l hx))
    have hI : (['\n'] : Str).intercalate (l :: m :: ms)
        = l ++ ['\n'] ++ (['\n'] : Str).intercalate (m :: ms) := by
      simp [List.intercalate, List.intersperse]
    obtain ⟨A, hA⟩ := intercalate_cons_head m ms
    obtain ⟨d, t2, hm⟩ := List.exists_cons_of_ne_nil (hl m (by simp)).1
    have hIne : ((['\n'] : Str).intercalate (m :: ms)).reverse ≠ [] := by
      rw [hA, hm]; simp
    obtain ⟨e, r, hrev⟩ := List.exists_cons_of_ne_nil hIne
    have he : pyIsSpace e = false :=
      head_not_space_of_dropWhile_eq (by rwa [hrev] at ih)
    rw [hI, List.reverse_append, hrev]
    exact dropWhile_append_of_head he

theorem dictInsert_append (k v : Str) :
    ∀ (d : List (Str × Str)), (∀ q ∈ d, q.1 ≠ k) → dictInsert k v d = d ++ [(k, v)]
  | [], _ => rfl
  | (k2, v2) :: rest, h => by
    rw [dictInsert, if_neg (h (k2, v2) (List.mem_cons_self _ _)),
      dictInsert_append k v rest (fun q hq => h q (List.mem_cons_of_mem _ hq))]
    rfl

theorem metadata_lines_foldl :
    ∀ (kvs : List (Str × Str)) (d : List (Str × Str)),
      (∀ kv ∈ kvs, normalizeKey kv.1 = kv.1 ∧ (':') ∉ kv.1 ∧ pyStrip kv.2 = kv.2) →
      (∀ kv ∈ kvs, ∀ q ∈ d, q.1 ≠ kv.1) →
      ((kvs.map Prod.fst).Nodup) →
      (kvs.map lineOf).foldl parseMetadataLine d = d ++ kvs
  | [], d, _, _, _ => by simp
  | kv :: rest, d, hwf, hdis, hnodup => by
    rw [List.map_cons, List.nodup_cons] at hnodup
    obtain ⟨hk, hkc, hv⟩ := hwf kv (List.mem_cons_self _ _)
    have hform : lineOf kv = kv.1 ++ ':' :: (' ' :: kv.2) := by
      rw [lineOf, List.append_assoc]
      exact rfl
    have hline : parseMetadataLine d (lineOf kv) = d ++ [kv] := by
      rw [hform, parseMetadataLine_colon d kv.1 (' ' :: kv.2)
          (fun ch hch heq => hkc (heq ▸ hch)), hk, pyStrip_space_cons hv,
        dictInsert_append kv.1 kv.2 d (fun q hq => hdis kv (List.mem_cons_self _ _) q hq)]
    rw [List.map_cons, List.foldl_cons, hline,
      metadata_lines_foldl rest (d ++ [kv])
        (fun x hx => hwf x (List.mem_cons_of_mem _ hx))
        (fun x hx q hq => by
          rcases List.mem_append.mp hq with hq1 | hq2
          · exact hdis x (List.mem_cons_of_mem _ hx) q hq1
          · have hqe : q = kv := by simpa using hq2
            subst hqe
            intro he
            exact hnodup.1 (he ▸ List.mem_map_of_mem Prod.fst hx))
        hnodup.2]
    simp

theorem parseMetadata_roundtrip (fn : Str) :
    ∀ (kvs : List (Str × Str)),
      (∀ kv ∈ kvs, normalizeKey kv.1 = kv.1 ∧ kv.1 ≠ [] ∧ (':') ∉ kv.1 ∧ ('\n') ∉ kv.1 ∧
        pyStrip kv.2 = kv.2 ∧ kv.2 ≠ [] ∧ ('\n') ∉ kv.2) →
      (kvs.map Prod.fst).Nodup →
      (∀ kv ∈ kvs, kv.1 ≠ str ("filename")) →
      parseMetadata (serializeMetadata kvs) [(str ("filename"), fn)]
        = (str ("filename"), fn) :: kvs
  | [], _, _, _ => by
    simp [parseMetadata, serializeMetadata, pyStrip, parseMetadataLine]
  | kv :: rest, hwf, hnodup, hfn => by
    have hser := serializeMetadata_eq_intercalate (kv :: rest) (by simp)
    obtain ⟨hk, hkne, hkc, hkn, hv, hvne, hvn⟩ := hwf kv (List.mem_cons_self _ _)
    obtain ⟨c, t, hkcons⟩ := List.exists_cons_of_ne_nil hkne
    have hstripk : pyStrip kv.1 = kv.1 := normalizeKey_fix_strip hk
    have hc : pyIsSpace c = false :=
      head_not_space_of_dropWhile_eq
        (by rw [← hkcons]; exact dropWhile_eq_self_of_pyStrip hstripk)
    have hline0 : lineOf kv = c :: (t ++ str (": ") ++ kv.2) := by
      rw [lineOf, hkcons]
      exact rfl
    have hL : ((['\n'] : Str).intercalate ((kv :: rest).map lineOf)).dropWhile pyIsSpace
        = (['\n'] : Str).intercalate ((kv :: rest).map lineOf) := by
      rw [List.map_cons, hline0]
      exact intercalate_dropWhile_fixed _ hc
    have hRlines : ∀ l ∈ (kv :: rest).map lineOf,
        l ≠ [] ∧ l.reverse.dropWhile pyIsSpace = l.reverse := by
      intro l hl
      obtain ⟨x, hx, rfl⟩ := List.mem_map.mp hl
      obtain ⟨_, _, _, _, hxv, hxvne, _⟩ := hwf x hx
      have hxrne : x.2.reverse ≠ [] := by simpa using hxvne
      obtain ⟨e, r, hrev⟩ := List.exists_cons_of_ne_nil hxrne
      have hfix : x.2.reverse.dropWhile pyIsSpace = x.2.reverse :=
        dropWhile_reverse_eq_of_pyStrip hxv
      have he : pyIsSpace e = false :=
        head_not_space_of_dropWhile_eq (by rwa [hrev] at hfix)
      refine ⟨by simp [lineOf, hxvne], ?_⟩
      rw [lineOf, List.reverse_append, hrev]
      exact dropWhile_append_of_head he
    have hR := intercalate_reverse_dropWhile_fixed ((kv :: rest).map lineOf)
      (by simp) hRlines
    have hnl : ∀ l ∈ (kv :: rest).map lineOf, ('\n') ∉ l := by
      intro l hl
      obtain ⟨x, hx, rfl⟩ := List.mem_map.mp hl
      obtain ⟨_, _, _, hxkn, _, _, hxvn⟩ := hwf x hx
      intro hmem
      rcases List.mem_append.mp hmem with hmem1 | hmem2
      · rcases List.mem_append.mp hmem1 with hmem3 | hmem4
        · exact hxkn hmem3
        · revert hmem4; decide
      · exact hxvn hmem2
    have hsplit : ((['\n'] : Str).intercalate ((kv :: rest).map lineOf)).splitOn '\n'
        = (kv :: rest).map lineOf :=
      List.splitOn_intercalate _ '\n' hnl (by simp)
    rw [parseMetadata, hser, pyStrip_wrap hL hR, hsplit,
      metadata_lines_foldl (kv :: rest) [(str ("filename"), fn)]
        (fun x hx => ⟨(hwf x hx).1, (hwf x hx).2.2.1, (hwf x hx).2.2.2.2.1⟩)
        (fun x hx q hq => by
          have hqe : q = (str ("filename"), fn) := by simpa using hq
          subst hqe
          exact Ne.symm (hfn x hx))
        hnodup]
    rfl

/-- C8 counterexample: the round-trip as claimed fails for an assembly
text carrying trailing whitespace: the parser trims it, so the reproduced
field is not byte-identical to the written text. -/
theorem c8_counterexample :
    (parse_results (writeWorkspace (str ("mov eax, 1 ")) (str ("int f;")) [])
        (str ("f.bin"))).1.assembly_code
      ≠ str ("mov eax, 1 ") := by decide

/-- C8 (amended): the round-trip holds for already-trimmed artifacts and
a well-formed metadata set, and reproduces the written mapping extended
with the parser's own filename binding: for assembly and decompiled texts
with no leading or trailing whitespace, and metadata bindings whose keys
are nonempty, normalization-fixed, colon- and newline-free, pairwise
distinct and distinct from the reserved filename key, and whose values
are nonempty, newline-free and trimmed, parsing the written workspace
reproduces both text fields byte-identically and yields exactly the
filename binding followed by the written bindings. -/
theorem c8_roundtrip_trimmed (a d fn : Str) (kvs : List (Str × Str))
    (ha : pyStrip a = a) (hd : pyStrip d = d)
    (hwf : ∀ kv ∈ kvs, normalizeKey kv.1 = kv.1 ∧ kv.1 ≠ [] ∧ (':') ∉ kv.1 ∧ ('\n') ∉ kv.1 ∧
      pyStrip kv.2 = kv.2 ∧ kv.2 ≠ [] ∧ ('\n') ∉ kv.2)
    (hnodup : (kvs.map Prod.fst).Nodup)
    (hfn : ∀ kv ∈ kvs, kv.1 ≠ str ("filename")) :
    (parse_results (writeWorkspace a d kvs) fn).1
      = { assembly_code := a
          decompiled_code := d
          metadata := (str ("filename"), fn) :: kvs } := by
  simp only [parse_results, writeWorkspace]
  rw [ha, hd, parseMetadata_roundtrip fn kvs hwf hnodup hfn]

/-- Witness for C8 (amended) at a concrete workspace: one trimmed assembly
text, one trimmed decompiled text and two well-formed metadata bindings
round-trip exactly. -/
theorem c8_roundtrip_trimmed_witness :
    (parse_results
        (writeWorkspace (str ("mov eax, 1")) (str ("int f(void);"))
          [(str ("program"), str ("foo")), (str ("language"), str ("x86:LE:32:default"))])
        (str ("f.bin"))).1
      = { assembly_code := str ("mov eax, 1")
          decompiled_code := str ("int f(void);")
          metadata := (str ("filename"), str ("f.bin")) ::
            [(str ("program"), str ("foo")), (str ("language"), str ("x86:LE:32:default"))] } :=
  c8_roundtrip_trimmed (str ("mov eax, 1")) (str ("int f(void);")) (str ("f.bin"))
    [(str ("program"), str ("foo")), (str ("language"), str ("x86:LE:32:default"))]
    (by decide) (by decide) (by decide) (by decide) (by decide)

end Spectrace
